import Mathlib

/-!
Verification development for the Recovery-System-Tool repository
(`src/filerecovery.py`).

The Python source is shallowly embedded: timestamps and day counts (Python
floats produced by `time.time()` and divisions) are modelled as exact
rationals `ℚ`, byte sizes and counters as `ℕ`, and the GUI/state-holding
methods as explicit state-passing functions.  `int(x)` on non-negative
quotients is modelled as the rational floor, i.e. `Nat` division where both
operands are naturals.  Fallible OS calls (os.stat, os.remove, observer
start) are modelled by `Option`/`Bool` success flags supplied as inputs.
-/

namespace FileRecovery

/-- One element of the `files_info` list that `FileScannerThread.run` builds
(src/filerecovery.py lines 57-67).  The two human-readable date strings are
pure `strftime` renderings of the two timestamps and are omitted; every
field a consumer reads is kept. -/
structure FileInfo where
  path : String
  name : String
  size_mb : ℚ
  days_unused : ℚ
  owner : String
  access_timestamp : ℚ
  mod_timestamp : ℚ
deriving DecidableEq, Repr

/-- Successful result of `os.stat` for one file: the fields the scanner
reads (lines 44-53). -/
structure StatResult where
  st_atime : ℚ
  st_mtime : ℚ
  st_size : ℕ
  owner : String
deriving DecidableEq, Repr

/-- One file visited by the scan walk: its path pieces, the outcome of
`os.stat` (`none` models the call raising, line 68), and the value
`time.time()` returns at the moment line 47 runs for this file. -/
structure ScanFile where
  path : String
  name : String
  probe : Option StatResult
  visitTime : ℚ
deriving DecidableEq, Repr

/-- The dictionary appended for one successfully probed file
(src/filerecovery.py lines 57-67): `days_unused` is
`(time.time() - last_access_time) / (24 * 3600)` with the *visit-time*
clock value, `size_mb` is `st_size / (1024 * 1024)`. -/
def mkFileInfo (p nm : String) (visitTime : ℚ) (st : StatResult) : FileInfo :=
  { path := p
    name := nm
    size_mb := (st.st_size : ℚ) / (1024 * 1024)
    days_unused := (visitTime - st.st_atime) / (24 * 3600)
    owner := st.owner
    access_timestamp := st.st_atime
    mod_timestamp := st.st_mtime }

/-- The record list `files_info` the scan emits (line 76): one entry per
file whose `os.stat` succeeded, in traversal order; a probe failure is
logged and skipped (lines 68-69). -/
def scanRecords (files : List ScanFile) : List FileInfo :=
  files.filterMap fun f => f.probe.map fun st => mkFileInfo f.path f.name f.visitTime st

/-- The `update_progress` emissions of one scan (lines 71-74): after every
visited file `scanned_files` is incremented and, **only when
`total_files > 0`**, the tuple `(int(scanned/total*100), scanned, total)`
is emitted.  `total` is the pass-1 count (lines 34-36), which under the
spec's quiescence assumption equals the walk's file count. -/
def progressFrom (total scanned : ℕ) : List ScanFile → List (ℕ × ℕ × ℕ)
  | [] => []
  | _ :: rest =>
    (if 0 < total then [((scanned + 1) * 100 / total, scanned + 1, total)] else [])
      ++ progressFrom total (scanned + 1) rest

/-- Full progress sequence of a scan over `files`. -/
def scanProgress (files : List ScanFile) : List (ℕ × ℕ × ℕ) :=
  progressFrom files.length 0 files

/-! ## Statistics (`update_file_statistics`, lines 500-544) -/

/-- The access-age list built at line 505: `update_file_statistics` reads a
fresh clock value `now = time.time()` (line 504) and maps
`(now - f.access_timestamp) / (24 * 3600)` over the records whose
timestamp is truthy (a `0` timestamp is filtered out by
`if f['access_timestamp']`). -/
def accessDaysList (files : List FileInfo) (now : ℚ) : List ℚ :=
  (files.filter fun f => f.access_timestamp ≠ 0).map
    fun f => (now - f.access_timestamp) / (24 * 3600)

/-- The modification-age list of line 506, same shape for `mod_timestamp`. -/
def modDaysList (files : List FileInfo) (now : ℚ) : List ℚ :=
  (files.filter fun f => f.mod_timestamp ≠ 0).map
    fun f => (now - f.mod_timestamp) / (24 * 3600)

/-- The histogram domain `max_days = 365 * 2` (line 509). -/
def maxDays : ℚ := 365 * 2

/-- Width of one of the 20 equal `np.histogram` bins over `(0, 730)`. -/
def binWidth : ℚ := maxDays / 20

/-- Bucket of one sample under `np.histogram(_, bins=20, range=(0, 730))`
(lines 510-511): a value outside `[0, 730]` is ignored by numpy (it gets no
bucket); a value inside falls in bin `⌊x / 36.5⌋`, except that the last
bin is closed on the right, so `x = 730` lands in bin 19. -/
def bucketIdx (x : ℚ) : Option ℕ :=
  if x < 0 ∨ maxDays < x then none
  else some (min (Int.toNat ⌊x / binWidth⌋) 19)

/-- The 20 bucket counts `np.histogram(ages, bins=20, range=(0, 730))`
returns (lines 510-511). -/
def npHistogram (ages : List ℚ) : List ℕ :=
  (List.range 20).map fun i => ages.countP fun x => bucketIdx x = some i

/-- The access-age histogram the File Stats tab plots (lines 505, 510). -/
def accessHistogram (files : List FileInfo) (now : ℚ) : List ℕ :=
  npHistogram (accessDaysList files now)

/-- The modification-age histogram (lines 506, 511). -/
def modHistogram (files : List FileInfo) (now : ℚ) : List ℕ :=
  npHistogram (modDaysList files now)

/-- Stable insertion step for a descending sort: the new element is placed
in front of the first element whose key does not exceed its own, so among
equal keys an element inserted later in the recursion (i.e. one occurring
later in the original list) stays behind earlier ones. -/
def insertDescBy (key : FileInfo → ℚ) (r : FileInfo) : List FileInfo → List FileInfo
  | [] => [r]
  | x :: xs => if key x ≤ key r then r :: x :: xs else x :: insertDescBy key r xs

/-- CPython's `sorted(files, key=..., reverse=True)` (lines 524-525):
descending by key, stable — elements with equal keys keep their original
relative order. -/
def sortDescBy (key : FileInfo → ℚ) : List FileInfo → List FileInfo
  | [] => []
  | x :: xs => insertDescBy key x (sortDescBy key xs)

/-- The slice `sorted(files, key=lambda x: x['access_timestamp'], reverse=True)[:n]`
(line 524; the source slices with `[:10]`). -/
def topRecentlyAccessed (files : List FileInfo) (n : ℕ) : List FileInfo :=
  (sortDescBy (fun f => f.access_timestamp) files).take n

/-- The slice `sorted(files, key=lambda x: x['mod_timestamp'], reverse=True)[:n]`
(line 525). -/
def topRecentlyModified (files : List FileInfo) (n : ℕ) : List FileInfo :=
  (sortDescBy (fun f => f.mod_timestamp) files).take n

/-! ## Unused-file display (`display_scan_results`, lines 479-498) -/

/-- Whether a record passes the staleness test of line 485. -/
def isUnused (f : FileInfo) : Bool := 180 < f.days_unused

/-- The records the unused-files report prints: the loop at line 484 runs
over `files[:20]` and only then applies the `days_unused > 180` test, so
records past index 19 are never examined. -/
def displayedUnused (files : List FileInfo) : List FileInfo :=
  (files.take 20).filter isUnused

/-! ## Duplicate groups (`optimize_storage`, lines 720-733) -/

/-- Grouping key: the code keys its dict on `hash((name, size_mb))`
(line 725); Python's tuple hash is modelled as injective, i.e. by the pair
itself. -/
def dupKey (f : FileInfo) : String × ℚ := (f.name, f.size_mb)

/-- One step of filling the `duplicates` dict (lines 723-729): append to
the existing entry of this key, or add a new key at the end (Python dicts
preserve key insertion order). -/
def addToGroups (acc : List ((String × ℚ) × List FileInfo)) (f : FileInfo) :
    List ((String × ℚ) × List FileInfo) :=
  match acc with
  | [] => [(dupKey f, [f])]
  | (k, g) :: rest =>
    if k = dupKey f then (k, g ++ [f]) :: rest else (k, g) :: addToGroups rest f

/-- The list `real_duplicates` (line 733): the dict's value lists, in key
first-insertion order, keeping those with more than one member.  No
sorting of any kind is applied. -/
def findDuplicateGroups (files : List FileInfo) : List (List FileInfo) :=
  ((files.foldl addToGroups []).map Prod.snd).filter fun g => 1 < g.length

/-! ## Scan start (`scan_files`, lines 457-470) -/

/-- A `FileScannerThread` handle as `scan_files` creates it (line 466):
the drive it was constructed with and a generation number distinguishing
successive thread objects. -/
structure ScannerHandle where
  drive : String
  gen : ℕ
deriving DecidableEq, Repr

/-- What `scan_files` does on one click: warn, or start a thread.  The
method has no other exit; in particular it has no branch that rejects a
request because a scan is already running. -/
inductive ScanFilesOutcome where
  | warnedSelectDrive
  | started
deriving DecidableEq, Repr

/-- The `FileSystemTool` state `scan_files` touches: the drive-selector
text, and every `FileScannerThread` ever created this session, newest
first (`self.scanner_thread` is the head; older threads stay alive and
keep whatever internal state they had — the code never stops them). -/
structure ScanToolState where
  selectedDrive : String
  scanThreads : List ScannerHandle
  nextGen : ℕ
deriving DecidableEq, Repr

/-- Method `scan_files` (lines 457-470): if the selector still shows
"Select a Drive" it warns and returns; otherwise it *unconditionally*
builds a fresh `FileScannerThread` for the selected drive, overwrites
`self.scanner_thread` with it and starts it. -/
def scan_files (s : ScanToolState) : ScanToolState × ScanFilesOutcome :=
  if s.selectedDrive = "Select a Drive" then
    (s, .warnedSelectDrive)
  else
    ({ s with
        scanThreads := { drive := s.selectedDrive, gen := s.nextGen } :: s.scanThreads
        nextGen := s.nextGen + 1 },
      .started)

/-! ## Monitoring (`start_monitoring` / `stop_monitoring` /
`update_monitor_log` / `update_monitor_stats`, lines 546-643, and
`FileEventHandler`, lines 79-103) -/

/-- The four running counts of a `file_events` dict (lines 83 and 112). -/
structure EventCounters where
  created : ℕ
  modified : ℕ
  deleted : ℕ
  moved : ℕ
deriving DecidableEq, Repr

/-- The dict `('created': 0, 'modified': 0, 'deleted': 0, 'moved': 0)`. -/
def EventCounters.zero : EventCounters := ⟨0, 0, 0, 0⟩

/-- The four watchdog callback kinds (lines 85-103). -/
inductive EventKind where
  | created
  | modified
  | deleted
  | moved
deriving DecidableEq, Repr

/-- The increment `self.file_events[kind] += 1`. -/
def EventCounters.bump : EventKind → EventCounters → EventCounters
  | .created, c => { c with created := c.created + 1 }
  | .modified, c => { c with modified := c.modified + 1 }
  | .deleted, c => { c with deleted := c.deleted + 1 }
  | .moved, c => { c with moved := c.moved + 1 }

/-- An `Observer` object (line 561), identified by the folder it watches
and a generation number distinguishing successive objects. -/
structure ObserverHandle where
  folder : String
  gen : ℕ
deriving DecidableEq, Repr

/-- A raw watchdog event as delivered to the `FileEventHandler` callbacks:
its kind, whether it concerns a directory, its path text (for `moved` the
source and destination are already joined as at line 103), and the
`datetime.now()` rendering current at delivery. -/
structure RawEvent where
  kind : EventKind
  isDirectory : Bool
  pathText : String
  timestamp : String
deriving DecidableEq, Repr

/-- The monitoring-related state of `FileSystemTool`: the selected folder,
the live observer if any, **the tool's own** `self.file_events` dict
(line 112 / 558), and the monitor log pane contents. -/
structure MonitorState where
  folderToMonitor : Option String
  observer : Option ObserverHandle
  file_events : EventCounters
  monitorLog : List String
  nextGen : ℕ
deriving DecidableEq, Repr

/-- The `FileEventHandler`'s own state: only its private `file_events`
dict (line 83). -/
structure HandlerState where
  file_events : EventCounters
deriving DecidableEq, Repr

/-- Constructor `FileEventHandler.__init__` (lines 80-83). -/
def freshHandler : HandlerState := ⟨EventCounters.zero⟩

/-- What `start_monitoring` reports back. -/
inductive StartMonitorOutcome where
  | warnedSelectFolder
  | started
  | failed
deriving DecidableEq, Repr

/-- Method `stop_monitoring` (lines 582-597): stops and drops the observer when
one exists, logging the fact; a no-op on the observer field otherwise. -/
def stop_monitoring (s : MonitorState) : MonitorState :=
  match s.observer with
  | some _ => { s with observer := none
                       monitorLog := s.monitorLog ++ ["stopped"] }
  | none => s

/-- Method `start_monitoring` (lines 546-580), with `startOk` standing for
whether `observer.start()` at line 566 raises.  With no folder selected it
warns and returns.  Otherwise, **if an observer is already running it is
stopped and replaced** (lines 551-552) — there is no `AlreadyMonitoring`
rejection; then the tool's own `file_events` is reset to zeros (line 558)
and a fresh observer is scheduled and started.  On a start exception the
new observer is stopped and cleared (lines 576-580). -/
def start_monitoring (s : MonitorState) (startOk : Bool) :
    MonitorState × StartMonitorOutcome :=
  match s.folderToMonitor with
  | none => (s, .warnedSelectFolder)
  | some folder =>
    let s1 := if s.observer.isSome then stop_monitoring s else s
    let s2 := { s1 with
                  monitorLog := s1.monitorLog ++ ["starting " ++ folder]
                  file_events := EventCounters.zero }
    let newObs : ObserverHandle := { folder := folder, gen := s2.nextGen }
    if startOk then
      ({ s2 with observer := some newObs, nextGen := s2.nextGen + 1 }, .started)
    else
      ({ s2 with observer := none
                 monitorLog := s2.monitorLog ++ ["failed to start"] }, .failed)

/-- Method `update_monitor_log` (lines 599-616): appends one coloured line to the
monitor log pane.  It touches nothing else — in particular it never writes
`self.file_events`. -/
def update_monitor_log (s : MonitorState) (eventName pathText timestamp : String) :
    MonitorState :=
  { s with monitorLog := s.monitorLog ++ [timestamp ++ " - " ++ eventName ++ ": " ++ pathText] }

/-- Display name of a kind as `update_signal.emit` sends it (lines 88-103). -/
def EventKind.name : EventKind → String
  | .created => "created"
  | .modified => "modified"
  | .deleted => "deleted"
  | .moved => "moved"

/-- Delivery of one watchdog event: the matching `FileEventHandler.on_*`
callback (lines 85-103) ignores directory events; for a file event it
increments **the handler's** `file_events` and emits `update_signal`,
which Qt routes to `FileSystemTool.update_monitor_log`. -/
def handleEvent (e : RawEvent) (h : HandlerState) (s : MonitorState) :
    HandlerState × MonitorState :=
  if e.isDirectory then (h, s)
  else ({ file_events := h.file_events.bump e.kind },
        update_monitor_log s e.kind.name e.pathText e.timestamp)

/-- A whole stream of deliveries, in order. -/
def processEvents (evs : List RawEvent) (h : HandlerState) (s : MonitorState) :
    HandlerState × MonitorState :=
  match evs with
  | [] => (h, s)
  | e :: rest =>
    let (h1, s1) := handleEvent e h s
    processEvents rest h1 s1

/-- The per-kind tally a stream of deliveries adds to a counter set
(directory events counted nowhere). -/
def tallyEvents (evs : List RawEvent) (c : EventCounters) : EventCounters :=
  match evs with
  | [] => c
  | e :: rest => tallyEvents rest (if e.isDirectory then c else c.bump e.kind)

/-- The four bar heights `update_monitor_stats` draws (lines 618-624):
`[self.file_events[e.lower()] for e in ['Created','Modified','Deleted','Moved']]`,
read from **the tool's** `self.file_events`. -/
def update_monitor_stats (s : MonitorState) : List ℕ :=
  [s.file_events.created, s.file_events.modified, s.file_events.deleted,
   s.file_events.moved]

/-! ## Storage sweep (`optimize_storage`, lines 656-718) -/

/-- A node of a directory listing: a plain file carries its size, whether
`os.path.getsize` succeeds on it, and whether `os.remove` succeeds; a
subdirectory carries its own entries. -/
inductive FsNode where
  | file (name : String) (sizeBytes : ℕ) (statOk : Bool) (removeOk : Bool)
  | dir (name : String) (children : List FsNode)
deriving Repr

/-- Whether the stat-then-delete of one file succeeds end to end. -/
def FsNode.deleted : FsNode → Bool
  | .file _ _ statOk removeOk => statOk && removeOk
  | .dir _ _ => false

/-- The stat-then-delete loop body shared by both sweeps: for each file
`(size, statOk, removeOk)`, `os.path.getsize` is read *before*
`os.remove`, and only when both succeed are the running count and the
pre-deletion size added; any exception skips just that file
(`except: continue`). -/
def tallyDeletions : List (ℕ × Bool × Bool) → ℕ × ℕ
  | [] => (0, 0)
  | x :: rest =>
    if x.2.1 && x.2.2 then
      ((tallyDeletions rest).1 + 1, (tallyDeletions rest).2 + x.1)
    else tallyDeletions rest

/-- The temp-directory sweep over one directory's `os.listdir` output
(lines 670-681): one level deep; an entry that is not a plain file is
skipped by the `os.path.isfile` test and never recursed into. -/
def sweepTempEntries : List FsNode → ℕ × ℕ
  | [] => (0, 0)
  | .file _ sz statOk removeOk :: rest =>
    if statOk && removeOk then
      ((sweepTempEntries rest).1 + 1, (sweepTempEntries rest).2 + sz)
    else sweepTempEntries rest
  | .dir _ _ :: rest => sweepTempEntries rest

/-- The view `os.walk` gives of a directory's entries, restricted to what the cache loop
consumes: every plain file at any depth, as `(size, statOk, removeOk)`. -/
def walkFiles : List FsNode → List (ℕ × Bool × Bool)
  | [] => []
  | .file _ sz statOk removeOk :: rest => (sz, statOk, removeOk) :: walkFiles rest
  | .dir _ cs :: rest => walkFiles cs ++ walkFiles rest

/-- The cache-directory sweep (lines 707-718): `os.walk` recurses fully
and every file found, at any depth, goes through the same
stat-then-delete loop. -/
def sweepCacheEntries (entries : List FsNode) : ℕ × ℕ :=
  tallyDeletions (walkFiles entries)

/-! ## Histogram lemmas (claim C1) -/

/-- In-range samples get the bucket `min ⌊x / 36.5⌋ 19`. -/
theorem bucketIdx_of_inRange {x : ℚ} (h0 : 0 ≤ x) (h1 : x ≤ maxDays) :
    bucketIdx x = some (min (Int.toNat ⌊x / binWidth⌋) 19) := by
  unfold bucketIdx
  rw [if_neg]
  push_neg
  exact ⟨h0, h1⟩

/-- Out-of-range samples are ignored by `np.histogram`. -/
theorem bucketIdx_of_notInRange {x : ℚ} (h : ¬(0 ≤ x ∧ x ≤ maxDays)) :
    bucketIdx x = none := by
  unfold bucketIdx
  rw [if_pos]
  rcases not_and_or.mp h with h' | h'
  · exact Or.inl (not_le.mp h')
  · exact Or.inr (not_le.mp h')

/-- Summing the indicator of a single index over `List.range n`. -/
theorem sum_range_indicator (k n : ℕ) :
    ((List.range n).map (fun i => if k = i then 1 else 0)).sum
      = if k < n then 1 else 0 := by
  induction n with
  | zero => simp
  | succ n ih =>
    rw [List.range_succ, List.map_append, List.sum_append, ih]
    by_cases hk : k < n
    · have : k ≠ n := Nat.ne_of_lt hk
      simp [this, hk, Nat.lt_succ_of_lt hk]
    · by_cases he : k = n
      · simp [he, hk]
      · have : ¬ k < n + 1 := by omega
        simp [hk, he, this]

/-- An in-range sample is counted in exactly one of the 20 buckets; an
out-of-range one in none. -/
theorem sum_bucket_indicator (a : ℚ) :
    ((List.range 20).map (fun i => if bucketIdx a = some i then 1 else 0)).sum
      = if 0 ≤ a ∧ a ≤ maxDays then 1 else 0 := by
  by_cases h : 0 ≤ a ∧ a ≤ maxDays
  · rw [if_pos h]
    have hb := bucketIdx_of_inRange h.1 h.2
    have hk : min (Int.toNat ⌊a / binWidth⌋) 19 < 20 :=
      Nat.lt_succ_of_le (min_le_right _ _)
    calc ((List.range 20).map (fun i => if bucketIdx a = some i then 1 else 0)).sum
        = ((List.range 20).map
            (fun i => if min (Int.toNat ⌊a / binWidth⌋) 19 = i then 1 else 0)).sum := by
          congr 1
          refine List.map_congr_left fun i _ => ?_
          rw [hb]
          simp
      _ = 1 := by rw [sum_range_indicator, if_pos hk]
  · rw [if_neg h]
    have hb := bucketIdx_of_notInRange h
    have : ∀ i ∈ List.range 20,
        (if bucketIdx a = some i then 1 else 0) = (0 : ℕ) := by
      intro i _
      rw [hb]
      simp
    rw [List.map_congr_left this]
    simp

/-- The bucket counts of `np.histogram(ages, bins=20, range=(0, 730))` sum
to the number of samples inside `[0, 730]`; samples outside contribute to
no bucket. -/
theorem npHistogram_sum (ages : List ℚ) :
    (npHistogram ages).sum = ages.countP fun x => 0 ≤ x ∧ x ≤ maxDays := by
  induction ages with
  | nil => simp [npHistogram]
  | cons a as ih =>
    have hmap : npHistogram (a :: as)
        = (List.range 20).map
            (fun i => as.countP (fun x => bucketIdx x = some i)
              + if bucketIdx a = some i then 1 else 0) := by
      unfold npHistogram
      refine List.map_congr_left fun i _ => ?_
      rw [List.countP_cons]
      simp
    rw [hmap, List.sum_map_add, List.countP_cons]
    have := sum_bucket_indicator a
    simp only [decide_eq_true_eq] at this ⊢
    rw [this, ← ih]
    rfl

/-- The histogram always has exactly 20 buckets. -/
theorem npHistogram_length (ages : List ℚ) : (npHistogram ages).length = 20 := by
  simp [npHistogram]

/-- A record 800 days old, scanned against a clock 801 days past its
access instant: its age exceeds 730 days. -/
def c1File : FileInfo :=
  { path := "/data/old.bin"
    name := "old.bin"
    size_mb := 1
    days_unused := 800
    owner := "root"
    access_timestamp := 86400
    mod_timestamp := 86400 }

/-- The statistics instant for the C1 counterexample: 800 days after
`c1File`'s access timestamp. -/
def c1Now : ℚ := 86400 + 800 * 86400

/-- C1 counterexample: for the one-record sequence `[c1File]` whose access
age is 800 days, the histogram's buckets sum to 0, not to the sequence
length 1, and the last bucket holds 0 — the over-730 record is dropped by
`np.histogram`'s `range=(0, 730)`, not clamped into the last bucket. -/
theorem c1_overflow_dropped_counterexample :
    (accessHistogram [c1File] c1Now).sum = 0
      ∧ ([c1File] : List FileInfo).length = 1
      ∧ (accessHistogram [c1File] c1Now).getLast? = some 0 := by
  have hages : accessDaysList [c1File] c1Now = [800] := by
    norm_num [accessDaysList, c1File, c1Now]
  have hb : bucketIdx (800 : ℚ) = none :=
    bucketIdx_of_notInRange (by norm_num [maxDays])
  have hhist : accessHistogram [c1File] c1Now = List.replicate 20 0 := by
    rw [accessHistogram, hages]
    simp [npHistogram, hb]
  rw [hhist]
  refine ⟨by simp, rfl, by decide⟩

/-- C1 (amended): `buildAgeHistogram` — the `np.histogram(_, bins=20,
range=(0, 730))` calls of `update_file_statistics` — returns exactly 20
equal-width buckets over [0, 730] days, but a record whose age lies
outside [0, 730] is dropped (counted in no bucket), not clamped; the sum
of all bucket counts equals the number of considered records whose age
lies within [0, 730]. -/
theorem c1_buildAgeHistogram_buckets_sum (files : List FileInfo) (now : ℚ) :
    (accessHistogram files now).length = 20
      ∧ (modHistogram files now).length = 20
      ∧ (accessHistogram files now).sum
          = (accessDaysList files now).countP (fun x => 0 ≤ x ∧ x ≤ maxDays)
      ∧ (modHistogram files now).sum
          = (modDaysList files now).countP (fun x => 0 ≤ x ∧ x ≤ maxDays) :=
  ⟨npHistogram_length _, npHistogram_length _, npHistogram_sum _, npHistogram_sum _⟩

/-! ## Duplicate-group lemmas (claim C2) -/

/-- Invariant of the `duplicates` dict: every stored record matches its
key. -/
def groupsWF (acc : List ((String × ℚ) × List FileInfo)) : Prop :=
  ∀ p ∈ acc, ∀ f ∈ p.2, dupKey f = p.1

/-- Adding one record to the dict keeps every group keyed by its members'
shared `(name, size_mb)`. -/
theorem addToGroups_wf :
    ∀ (acc : List ((String × ℚ) × List FileInfo)) (f : FileInfo),
      groupsWF acc → groupsWF (addToGroups acc f) := by
  intro acc f
  induction acc with
  | nil =>
    intro _ p hp
    simp only [addToGroups, List.mem_singleton] at hp
    subst hp
    intro x hx
    simp only [List.mem_singleton] at hx
    subst hx
    rfl
  | cons hd tl ih =>
    intro h
    obtain ⟨k, g⟩ := hd
    simp only [addToGroups]
    split_ifs with hk
    · intro p hp
      rcases List.mem_cons.mp hp with rfl | hp
      · intro x hx
        rcases List.mem_append.mp hx with hx | hx
        · exact h (k, g) (List.mem_cons_self _ _) x hx
        · simp only [List.mem_singleton] at hx
          subst hx
          exact hk.symm
      · exact h p (List.mem_cons_of_mem _ hp)
    · intro p hp
      rcases List.mem_cons.mp hp with rfl | hp
      · exact h (k, g) (List.mem_cons_self _ _)
      · exact ih (fun q hq => h q (List.mem_cons_of_mem _ hq)) p hp

/-- The invariant holds after folding any record sequence into the dict. -/
theorem foldl_addToGroups_wf (files : List FileInfo) :
    ∀ acc, groupsWF acc → groupsWF (files.foldl addToGroups acc) := by
  induction files with
  | nil => exact fun _ h => h
  | cons f fs ih => exact fun acc h => ih _ (addToGroups_wf acc f h)

/-- First member of the "a" duplicate pair. -/
def c2A1 : FileInfo :=
  { path := "/d/a1", name := "a", size_mb := 1, days_unused := 0, owner := "u",
    access_timestamp := 1, mod_timestamp := 1 }

/-- Second member of the "a" duplicate pair. -/
def c2A2 : FileInfo := { c2A1 with path := "/d/a2" }

/-- First member of the "b" duplicate triple. -/
def c2B1 : FileInfo :=
  { path := "/d/b1", name := "b", size_mb := 2, days_unused := 0, owner := "u",
    access_timestamp := 1, mod_timestamp := 1 }

/-- Second member of the "b" duplicate triple. -/
def c2B2 : FileInfo := { c2B1 with path := "/d/b2" }

/-- Third member of the "b" duplicate triple. -/
def c2B3 : FileInfo := { c2B1 with path := "/d/b3" }

/-- The record sequence for the C2 counterexample: a duplicate pair first,
then a duplicate triple. -/
def c2Files : List FileInfo := [c2A1, c2A2, c2B1, c2B2, c2B3]

/-- C2 counterexample: on a sequence holding a duplicate pair before a
duplicate triple, `findDuplicateGroups` returns the groups in key
first-insertion order — sizes `[2, 3]` — which is not ordered by group
size descending. -/
theorem c2_group_order_counterexample :
    (findDuplicateGroups c2Files).map List.length = [2, 3]
      ∧ ¬ List.Pairwise (fun g₁ g₂ => g₂.length ≤ g₁.length)
          (findDuplicateGroups c2Files) := by
  constructor <;> decide

/-- C2 (amended): `findDuplicateGroups` never returns a group of size 1,
and every member of a returned group has an identical `(name, size)`
pair; the groups, however, come out in the order the key is first seen in
the record sequence (dict insertion order), not sorted by group size or
representative path. -/
theorem c2_findDuplicateGroups_members (files : List FileInfo) :
    List.Forall (fun g => 2 ≤ g.length ∧ ∀ a ∈ g, ∀ b ∈ g, dupKey a = dupKey b)
      (findDuplicateGroups files) := by
  rw [List.forall_iff_forall_mem]
  intro g hg
  unfold findDuplicateGroups at hg
  obtain ⟨hmem, hlen⟩ := List.mem_filter.mp hg
  obtain ⟨p, hp, rfl⟩ := List.mem_map.mp hmem
  have hwf : groupsWF (files.foldl addToGroups []) :=
    foldl_addToGroups_wf files [] (fun q hq => absurd hq (List.not_mem_nil q))
  refine ⟨of_decide_eq_true hlen, ?_⟩
  intro a ha b hb
  rw [hwf p hp a ha, hwf p hp b hb]

/-! ## Unused-file display lemmas (claim C5) -/

/-- A record the C5 counterexample repeats 20 times at the head of the
scan output: accessed recently, so not stale. -/
def c5Fresh : FileInfo :=
  { path := "/d/fresh", name := "fresh", size_mb := 1, days_unused := 0,
    owner := "u", access_timestamp := 1, mod_timestamp := 1 }

/-- The 21st record: stale for 200 days, past the display's `files[:20]`
cap. -/
def c5Stale : FileInfo :=
  { path := "/d/stale", name := "stale", size_mb := 1, days_unused := 200,
    owner := "u", access_timestamp := 1, mod_timestamp := 1 }

/-- 20 fresh records followed by one stale one. -/
def c5Files : List FileInfo := List.replicate 20 c5Fresh ++ [c5Stale]

/-- C5 counterexample: with the only stale record sitting at index 20, the
displayed unused-file list is empty although the full filtered set holds
that record — the code caps which records are *considered*
(`files[:20]`), not merely how many are displayed. -/
theorem c5_cap_before_filter_counterexample :
    displayedUnused c5Files = [] ∧ c5Files.filter isUnused = [c5Stale] := by
  constructor <;> decide

/-- C5 (amended): the unused-file report examines only the first 20
records of the scan sequence and filters those by `days_unused > 180`; the
result is a sublist of the full filtered set, every displayed record is
genuinely stale and occurs among the first 20 records, but a qualifying
record beyond index 19 is never considered. -/
theorem c5_displayedUnused_prefix_of_filter (files : List FileInfo) :
    (displayedUnused files).Sublist (files.filter isUnused)
      ∧ ∀ r ∈ displayedUnused files, isUnused r = true ∧ r ∈ files.take 20 := by
  refine ⟨List.Sublist.filter _ (List.take_sublist 20 files), ?_⟩
  intro r hr
  exact ⟨(List.mem_filter.mp hr).2, (List.mem_filter.mp hr).1⟩

/-! ## Top-N sorting lemmas (claim C6) -/

/-- Inserting adds exactly the new element. -/
theorem mem_insertDescBy (key : FileInfo → ℚ) (r y : FileInfo) :
    ∀ l, y ∈ insertDescBy key r l ↔ y = r ∨ y ∈ l := by
  intro l
  induction l with
  | nil => simp [insertDescBy]
  | cons x xs ih =>
    rw [insertDescBy]
    split_ifs with hx
    · simp [List.mem_cons]
    · simp only [List.mem_cons, ih]
      tauto

/-- Inserting into a list that is non-increasing on the key keeps it so. -/
theorem pairwise_insertDescBy (key : FileInfo → ℚ) (r : FileInfo) :
    ∀ l, List.Pairwise (fun a b => key b ≤ key a) l →
      List.Pairwise (fun a b => key b ≤ key a) (insertDescBy key r l) := by
  intro l
  induction l with
  | nil => intro _; simp [insertDescBy]
  | cons x xs ih =>
    intro h
    rw [insertDescBy]
    split_ifs with hx
    · refine List.Pairwise.cons ?_ h
      intro b hb
      rcases List.mem_cons.mp hb with rfl | hb
      · exact hx
      · exact le_trans ((List.pairwise_cons.mp h).1 b hb) hx
    · refine List.Pairwise.cons ?_ (ih (List.pairwise_cons.mp h).2)
      intro b hb
      rcases (mem_insertDescBy key r b xs).mp hb with rfl | hb
      · exact le_of_lt (lt_of_not_le hx)
      · exact (List.pairwise_cons.mp h).1 b hb

/-- The descending sort is non-increasing on the key. -/
theorem sortDescBy_pairwise (key : FileInfo → ℚ) :
    ∀ l, List.Pairwise (fun a b => key b ≤ key a) (sortDescBy key l) := by
  intro l
  induction l with
  | nil => exact List.Pairwise.nil
  | cons x xs ih => exact pairwise_insertDescBy key x _ ih

/-- Restricting to one key value, insertion puts the new element first:
everything placed in front of it has a strictly larger key. -/
theorem filter_insertDescBy (key : FileInfo → ℚ) (t : ℚ) (r : FileInfo) :
    ∀ l, (insertDescBy key r l).filter (fun a => key a = t)
      = if key r = t then r :: l.filter (fun a => key a = t)
        else l.filter (fun a => key a = t) := by
  intro l
  induction l with
  | nil =>
    rw [insertDescBy]
    by_cases hr : key r = t <;> simp [hr]
  | cons x xs ih =>
    rw [insertDescBy]
    by_cases hx : key x ≤ key r
    · rw [if_pos hx]
      by_cases hr : key r = t <;> simp [List.filter_cons, hr]
    · rw [if_neg hx]
      by_cases hr : key r = t
      · have hxt : ¬ key x = t := fun he => hx (le_of_eq (he.trans hr.symm))
        simp [List.filter_cons, hr, hxt, ih]
      · simp [List.filter_cons, hr, ih]

/-- Stability of the sort, as the standard filter characterization: among
records sharing one key value, the sorted output keeps the input's order
exactly. -/
theorem sortDescBy_filter (key : FileInfo → ℚ) (t : ℚ) :
    ∀ l, (sortDescBy key l).filter (fun a => key a = t)
      = l.filter (fun a => key a = t) := by
  intro l
  induction l with
  | nil => rfl
  | cons x xs ih =>
    rw [sortDescBy, filter_insertDescBy, ih, List.filter_cons]
    by_cases hx : key x = t <;> simp [hx]

/-- A tied record whose path sorts lexically first. -/
def c6A : FileInfo :=
  { path := "/m/a", name := "a", size_mb := 1, days_unused := 0, owner := "u",
    access_timestamp := 5, mod_timestamp := 5 }

/-- A tied record whose path sorts lexically last, listed first in the
scan order. -/
def c6B : FileInfo :=
  { path := "/m/b", name := "b", size_mb := 1, days_unused := 0, owner := "u",
    access_timestamp := 5, mod_timestamp := 5 }

/-- C6 counterexample: two records with equal access timestamps, scanned
in the order `[c6B, c6A]`.  The stable `sorted(..., reverse=True)` keeps
them in that original order, so the adjacent tied pair comes out with the
lexically *larger* path (`/m/b`) first — ties are not broken by path. -/
theorem c6_tie_order_counterexample :
    topRecentlyAccessed [c6B, c6A] 2 = [c6B, c6A]
      ∧ c6B.access_timestamp = c6A.access_timestamp
      ∧ c6A.path < c6B.path := by
  refine ⟨by decide, rfl, ?_⟩
  rw [String.lt_iff_toList_lt]
  decide

/-- C6 (amended): `topRecentlyAccessed(R, n)` / `topRecentlyModified(R, n)`
return the first `n` records of a sort that is non-increasing on the
relevant timestamp; ties are broken by the records' original order in `R`
(CPython's sort is stable), not by path lexical order: restricted to any
single timestamp value, the sorted sequence equals the input sequence. -/
theorem c6_topRecently_sorted_and_stable (files : List FileInfo) (n : ℕ) :
    List.Pairwise (fun a b => b.access_timestamp ≤ a.access_timestamp)
        (topRecentlyAccessed files n)
      ∧ List.Pairwise (fun a b => b.mod_timestamp ≤ a.mod_timestamp)
          (topRecentlyModified files n)
      ∧ (∀ t, (sortDescBy (fun f => f.access_timestamp) files).filter
            (fun r => r.access_timestamp = t)
          = files.filter (fun r => r.access_timestamp = t))
      ∧ (∀ t, (sortDescBy (fun f => f.mod_timestamp) files).filter
            (fun r => r.mod_timestamp = t)
          = files.filter (fun r => r.mod_timestamp = t)) := by
  refine ⟨?_, ?_, ?_, ?_⟩
  · exact List.Pairwise.sublist (List.take_sublist n _)
      (sortDescBy_pairwise (fun f => f.access_timestamp) files)
  · exact List.Pairwise.sublist (List.take_sublist n _)
      (sortDescBy_pairwise (fun f => f.mod_timestamp) files)
  · exact fun t => sortDescBy_filter _ t files
  · exact fun t => sortDescBy_filter _ t files

/-! ## Progress lemmas (claim C4) -/

/-- With a zero pass-1 count the guard `if total_files > 0` suppresses
every emission. -/
theorem progressFrom_total_zero :
    ∀ (files : List ScanFile) (scanned : ℕ), progressFrom 0 scanned files = [] := by
  intro files
  induction files with
  | nil => intro _; rfl
  | cons f rest ih =>
    intro scanned
    show (if 0 < 0 then _ else []) ++ progressFrom 0 (scanned + 1) rest = []
    rw [if_neg (lt_irrefl 0), List.nil_append, ih]

/-- Closed form of the emission loop: with a positive total, one tuple per
visited file, the `k`-th carrying the running count `scanned + k + 1` and
its floored percentage. -/
theorem progressFrom_eq (total : ℕ) (ht : 0 < total) :
    ∀ (files : List ScanFile) (scanned : ℕ),
      progressFrom total scanned files
        = (List.range files.length).map
            (fun k => ((scanned + k + 1) * 100 / total, scanned + k + 1, total)) := by
  intro files
  induction files with
  | nil => intro _; rfl
  | cons f rest ih =>
    intro scanned
    simp only [progressFrom]
    rw [if_pos ht, ih (scanned + 1), List.singleton_append, List.length_cons,
      List.range_succ_eq_map, List.map_cons, List.map_map]
    refine List.cons_eq_cons.mpr ⟨by simp, ?_⟩
    refine List.map_congr_left fun k _ => ?_
    have h1 : scanned + 1 + k + 1 = scanned + (k + 1) + 1 := by omega
    simp [Function.comp, h1]

/-- C4 counterexample: a scan of an empty tree (`totalCount = 0`) emits no
progress tuple at all — in particular it does not emit `(100, 0, 0)` as
the claim requires. -/
theorem c4_empty_scan_counterexample :
    scanProgress ([] : List ScanFile) = []
      ∧ scanProgress ([] : List ScanFile) ≠ [(100, 0, 0)] := by
  constructor <;> decide

/-- C4 (amended): within one scan the emitted progress sequence has
`percentComplete = floor(100 * scannedCount / totalCount)`, is
monotonically non-decreasing, and ends at exactly `(100, total, total)`
when `totalCount > 0`; but when `totalCount = 0` the guard
`if total_files > 0` makes the scan emit *nothing* (division by zero is
avoided by skipping the emission, not by emitting `(100, 0, 0)`). -/
theorem c4_progress_sequence (files : List ScanFile) :
    (files.length = 0 → scanProgress files = [])
      ∧ (0 < files.length →
          scanProgress files
            = (List.range files.length).map
                (fun k => ((k + 1) * 100 / files.length, k + 1, files.length))
            ∧ List.Chain' (fun p q => p.1 ≤ q.1) (scanProgress files)
            ∧ (scanProgress files).getLast?
                = some (100, files.length, files.length)) := by
  constructor
  · intro h0
    rw [scanProgress, h0]
    exact progressFrom_total_zero files 0
  · intro hpos
    have hform : scanProgress files
        = (List.range files.length).map
            (fun k => ((k + 1) * 100 / files.length, k + 1, files.length)) := by
      rw [scanProgress, progressFrom_eq files.length hpos files 0]
      refine List.map_congr_left fun k _ => ?_
      simp
    refine ⟨hform, ?_, ?_⟩
    · rw [hform, List.chain'_map]
      obtain ⟨m, hm⟩ := Nat.exists_eq_succ_of_ne_zero (Nat.pos_iff_ne_zero.mp hpos)
      rw [hm, List.chain'_range_succ]
      intro i _
      apply Nat.div_le_div_right
      omega
    · rw [hform]
      obtain ⟨m, hm⟩ := Nat.exists_eq_succ_of_ne_zero (Nat.pos_iff_ne_zero.mp hpos)
      rw [hm, List.getLast?_map, List.range_succ, List.getLast?_concat]
      have h100 : (m + 1) * 100 / (m + 1) = 100 :=
        Nat.mul_div_cancel_left 100 (by omega)
      simp [h100]

/-! ## Scan-start lemmas (claim C3) -/

/-- A tool state with a scan already in flight: one scanner thread exists
and is running. -/
def c3Busy : ScanToolState :=
  { selectedDrive := "/", scanThreads := [{ drive := "/", gen := 0 }], nextGen := 1 }

/-- C3 counterexample: with a scan already in flight, a second
`scan_files` call is *not* rejected with a `Busy` error — the method has
no such branch — it starts a second scanner thread and repoints
`self.scanner_thread` at it. -/
theorem c3_second_scan_not_rejected_counterexample :
    (scan_files c3Busy).2 = ScanFilesOutcome.started
      ∧ (scan_files c3Busy).1.scanThreads
          = [{ drive := "/", gen := 1 }, { drive := "/", gen := 0 }] := by
  constructor <;> rfl

/-- C3 (amended): `scan_files` never rejects a request because a scan is
running: whenever a drive is selected it returns `started` and pushes a
fresh scanner thread, overwriting the `self.scanner_thread` reference; the
previously created threads (including an in-flight one) are left untouched
as the tail of the thread list, so the in-flight scan's own state is not
altered — but no `Busy` error exists in the code. -/
theorem c3_scan_files_always_starts (s : ScanToolState)
    (h : s.selectedDrive ≠ "Select a Drive") :
    (scan_files s).2 = ScanFilesOutcome.started
      ∧ (scan_files s).1.scanThreads
          = { drive := s.selectedDrive, gen := s.nextGen } :: s.scanThreads := by
  rw [scan_files, if_neg h]
  exact ⟨rfl, rfl⟩

/-- C3 witness: the amended behavior at the concrete busy state. -/
theorem c3_scan_files_always_starts_witness :
    (scan_files c3Busy).2 = ScanFilesOutcome.started
      ∧ (scan_files c3Busy).1.scanThreads
          = { drive := c3Busy.selectedDrive, gen := c3Busy.nextGen } :: c3Busy.scanThreads :=
  c3_scan_files_always_starts c3Busy (by decide)

/-! ## Monitoring-start lemmas (claim C8) -/

/-- A watcher state that is actively monitoring `/watch`. -/
def c8Active : MonitorState :=
  { folderToMonitor := some "/watch"
    observer := some { folder := "/watch", gen := 0 }
    file_events := ⟨1, 2, 3, 4⟩
    monitorLog := []
    nextGen := 1 }

/-- C8 counterexample: calling `start_monitoring` while an observer is
active does not fail with `AlreadyMonitoring` — it returns `started`,
having stopped the running observer and replaced it with a fresh one. -/
theorem c8_start_while_active_counterexample :
    (start_monitoring c8Active true).2 = StartMonitorOutcome.started
      ∧ (start_monitoring c8Active true).1.observer
          = some { folder := "/watch", gen := 1 } := by
  constructor <;> rfl

/-- C8 (amended): `start(rootPath)` on a watcher that is already actively
monitoring is not rejected: `start_monitoring` itself stops the running
observer (lines 551-552) and then starts a fresh subscription on the
selected folder, resetting the tool's event counters — a stop-and-replace,
with no `AlreadyMonitoring` failure path in the code. -/
theorem c8_start_monitoring_replaces (s : MonitorState) (folder : String)
    (o : ObserverHandle) (hf : s.folderToMonitor = some folder)
    (ho : s.observer = some o) :
    (start_monitoring s true).2 = StartMonitorOutcome.started
      ∧ (start_monitoring s true).1.observer
          = some { folder := folder, gen := s.nextGen }
      ∧ (start_monitoring s true).1.file_events = EventCounters.zero := by
  simp [start_monitoring, hf, ho, stop_monitoring]

/-- C8 witness: the amended behavior at the concrete active state. -/
theorem c8_start_monitoring_replaces_witness :
    (start_monitoring c8Active true).2 = StartMonitorOutcome.started
      ∧ (start_monitoring c8Active true).1.observer
          = some { folder := "/watch", gen := c8Active.nextGen }
      ∧ (start_monitoring c8Active true).1.file_events = EventCounters.zero :=
  c8_start_monitoring_replaces c8Active "/watch" { folder := "/watch", gen := 0 } rfl rfl

/-! ## Event-counter separation lemmas (claim C10) -/

/-- Delivering any event stream leaves the tool's `self.file_events`
untouched (the signal lands in `update_monitor_log`, which only appends
to the log pane), while the handler's private dict tallies every non-
directory event. -/
theorem processEvents_counters :
    ∀ (evs : List RawEvent) (h : HandlerState) (s : MonitorState),
      (processEvents evs h s).2.file_events = s.file_events
        ∧ (processEvents evs h s).1.file_events = tallyEvents evs h.file_events := by
  intro evs
  induction evs with
  | nil => exact fun h s => ⟨rfl, rfl⟩
  | cons e rest ih =>
    intro h s
    by_cases hd : e.isDirectory
    · simp only [processEvents, handleEvent, hd, if_true, tallyEvents]
      exact ih h s
    · simp only [processEvents, handleEvent, hd, if_false, tallyEvents,
        Bool.false_eq_true, update_monitor_log]
      exact ih _ _

/-- Starting monitoring (with any folder selected) resets the tool's
counter dict to all zeros. -/
theorem start_monitoring_zeroes_tool_counters (s : MonitorState) (folder : String)
    (hf : s.folderToMonitor = some folder) :
    (start_monitoring s true).1.file_events = EventCounters.zero := by
  cases ho : s.observer with
  | none => simp [start_monitoring, hf, ho, stop_monitoring]
  | some o => simp [start_monitoring, hf, ho, stop_monitoring]

/-- C10: the counter mapping the statistics display reads
(`FileSystemTool.file_events`) is a separate object from the handler's
(`FileEventHandler.file_events`) and is incremented by no delivered
event: for a whole monitoring session — start followed by any delivered
event stream — the tool's counters remain all zero and
`update_monitor_stats` draws `[0, 0, 0, 0]`, while the handler's private
counters tally every non-directory event. -/
theorem c10_display_counters_stay_zero (s : MonitorState) (folder : String)
    (evs : List RawEvent) (hf : s.folderToMonitor = some folder) :
    (processEvents evs freshHandler (start_monitoring s true).1).2.file_events
        = EventCounters.zero
      ∧ update_monitor_stats
          (processEvents evs freshHandler (start_monitoring s true).1).2
          = [0, 0, 0, 0]
      ∧ (processEvents evs freshHandler (start_monitoring s true).1).1.file_events
          = tallyEvents evs EventCounters.zero := by
  obtain ⟨hA, hB⟩ :=
    processEvents_counters evs freshHandler (start_monitoring s true).1
  have hz := start_monitoring_zeroes_tool_counters s folder hf
  refine ⟨hA.trans hz, ?_, hB⟩
  rw [update_monitor_stats, hA.trans hz]
  rfl

/-- A state about to start monitoring `/w`, with stale nonzero counters
left from some earlier session. -/
def c10Start : MonitorState :=
  { folderToMonitor := some "/w"
    observer := none
    file_events := ⟨7, 1, 0, 2⟩
    monitorLog := []
    nextGen := 0 }

/-- A delivered stream: two file events and one directory event. -/
def c10Events : List RawEvent :=
  [{ kind := .created, isDirectory := false, pathText := "/w/x", timestamp := "t1" },
   { kind := .created, isDirectory := true, pathText := "/w/d", timestamp := "t2" },
   { kind := .moved, isDirectory := false, pathText := "/w/a to /w/b", timestamp := "t3" }]

/-- C10 witness: the session property at a concrete start state and
event stream. -/
theorem c10_display_counters_stay_zero_witness :
    (processEvents c10Events freshHandler (start_monitoring c10Start true).1).2.file_events
        = EventCounters.zero
      ∧ update_monitor_stats
          (processEvents c10Events freshHandler (start_monitoring c10Start true).1).2
          = [0, 0, 0, 0]
      ∧ (processEvents c10Events freshHandler (start_monitoring c10Start true).1).1.file_events
          = tallyEvents c10Events EventCounters.zero :=
  c10_display_counters_stay_zero c10Start "/w" c10Events rfl

/-! ## Storage-sweep lemmas (claim C9) -/

/-- The plain files at the top level of a listing — what the temp loop's
`os.path.isfile` test lets through. -/
def topFiles (entries : List FsNode) : List (ℕ × Bool × Bool) :=
  entries.filterMap fun e =>
    match e with
    | .file _ sz statOk removeOk => some (sz, statOk, removeOk)
    | .dir _ _ => none

/-- The deletion predicate: both the stat and the remove succeed. -/
def delOk (x : ℕ × Bool × Bool) : Bool := x.2.1 && x.2.2

/-- The stat-then-delete loop tallies exactly the successfully deleted
files, and the bytes are the sum of their pre-deletion sizes. -/
theorem tallyDeletions_eq :
    ∀ l, tallyDeletions l
      = ((l.filter delOk).length, ((l.filter delOk).map Prod.fst).sum) := by
  intro l
  induction l with
  | nil => rfl
  | cons x rest ih =>
    cases h : delOk x with
    | true =>
      have h' : (x.2.1 && x.2.2) = true := h
      simp [tallyDeletions, h', ih, List.filter_cons, delOk, h, Nat.add_comm]
    | false =>
      have h' : (x.2.1 && x.2.2) = false := h
      simp [tallyDeletions, h', ih, List.filter_cons, delOk, h]

/-- The temp sweep is the deletion loop run on the top-level plain files
only. -/
theorem sweepTempEntries_eq_tally :
    ∀ entries, sweepTempEntries entries = tallyDeletions (topFiles entries) := by
  intro entries
  induction entries with
  | nil => rfl
  | cons e rest ih =>
    cases e with
    | file nm sz so ro =>
      cases h : (so && ro) with
      | true => simp [sweepTempEntries, topFiles, tallyDeletions, h, ih]
      | false => simp [sweepTempEntries, topFiles, tallyDeletions, h, ih]
    | dir nm cs => simp [sweepTempEntries, topFiles, ih]

/-- Walking distributes over listing concatenation. -/
theorem walkFiles_append :
    ∀ l1 l2, walkFiles (l1 ++ l2) = walkFiles l1 ++ walkFiles l2 := by
  intro l1
  induction l1 with
  | nil => intro l2; simp [walkFiles]
  | cons e rest ih =>
    intro l2
    cases e with
    | file nm sz so ro => simp [walkFiles, ih]
    | dir nm cs => simp [walkFiles, ih, List.append_assoc]

/-- Top-level file extraction distributes over listing concatenation. -/
theorem topFiles_append :
    ∀ l1 l2, topFiles (l1 ++ l2) = topFiles l1 ++ topFiles l2 := by
  intro l1 l2
  exact List.filterMap_append l1 l2 _

/-- A failing file contributes nothing and the loop continues over the
rest. -/
theorem tallyDeletions_skip (l1 l2 : List (ℕ × Bool × Bool))
    (x : ℕ × Bool × Bool) (h : delOk x = false) :
    tallyDeletions (l1 ++ x :: l2) = tallyDeletions (l1 ++ l2) := by
  rw [tallyDeletions_eq, tallyDeletions_eq, List.filter_append, List.filter_append,
    List.filter_cons, h]
  simp

/-- C9: `cleanTransientLocations` — the temp and cache loops of
`optimize_storage` — sweeps temp directories one level deep (a
subdirectory's contents are untouched by the temp loop) while cache
directories are recursed fully by `os.walk`; every individual deletion
failure (a failing stat or remove) is skipped without aborting the rest of
the sweep; and the returned counts and total bytes are exactly the number
of successfully deleted files and the sum of their sizes observed
immediately before deletion. -/
theorem c9_storage_sweep (entries : List FsNode) :
    sweepTempEntries entries
        = (((topFiles entries).filter delOk).length,
            (((topFiles entries).filter delOk).map Prod.fst).sum)
      ∧ sweepCacheEntries entries
        = (((walkFiles entries).filter delOk).length,
            (((walkFiles entries).filter delOk).map Prod.fst).sum)
      ∧ (∀ nm cs, sweepTempEntries [FsNode.dir nm cs] = (0, 0)
            ∧ sweepCacheEntries [FsNode.dir nm cs] = sweepCacheEntries cs)
      ∧ (∀ pre post nm sz so ro, (so && ro) = false →
            sweepTempEntries (pre ++ FsNode.file nm sz so ro :: post)
                = sweepTempEntries (pre ++ post)
            ∧ sweepCacheEntries (pre ++ FsNode.file nm sz so ro :: post)
                = sweepCacheEntries (pre ++ post)) := by
  refine ⟨?_, ?_, ?_, ?_⟩
  · rw [sweepTempEntries_eq_tally, tallyDeletions_eq]
  · rw [sweepCacheEntries, tallyDeletions_eq]
  · intro nm cs
    constructor
    · rfl
    · show tallyDeletions (walkFiles [FsNode.dir nm cs]) = tallyDeletions (walkFiles cs)
      simp [walkFiles]
  · intro pre post nm sz so ro h
    constructor
    · rw [sweepTempEntries_eq_tally, sweepTempEntries_eq_tally,
        topFiles_append, topFiles_append]
      have : topFiles [FsNode.file nm sz so ro] = [(sz, so, ro)] := rfl
      show tallyDeletions (topFiles pre ++ topFiles (FsNode.file nm sz so ro :: post))
          = tallyDeletions (topFiles pre ++ topFiles post)
      have hcons : topFiles (FsNode.file nm sz so ro :: post)
          = (sz, so, ro) :: topFiles post := rfl
      rw [hcons]
      exact tallyDeletions_skip _ _ _ h
    · rw [sweepCacheEntries, sweepCacheEntries, walkFiles_append, walkFiles_append]
      have hcons : walkFiles (FsNode.file nm sz so ro :: post)
          = (sz, so, ro) :: walkFiles post := by simp [walkFiles]
      rw [hcons]
      exact tallyDeletions_skip _ _ _ h

/-! ## Age-instant lemmas (claim C7) -/

/-- A record accessed at timestamp 86400, for the C7 counterexample. -/
def c7File : FileInfo :=
  { path := "/data/f", name := "f", size_mb := 1, days_unused := 0,
    owner := "u", access_timestamp := 86400, mod_timestamp := 86400 }

/-- A display instant 700 days after `c7File`'s access time. -/
def c7NowA : ℚ := 86400 + 700 * 86400

/-- A later display instant, 800 days after `c7File`'s access time. -/
def c7NowB : ℚ := 86400 + 800 * 86400

/-- C7 counterexample: the very same completed scan output `[c7File]`
yields different access-age histograms when the statistics are recomputed
at two different instants (at `c7NowA` the record is 700 days old and
counted; at `c7NowB` it is 800 days old and dropped) — the aggregates are
not identical regardless of when they are recomputed. -/
theorem c7_recompute_differs_counterexample :
    accessHistogram [c7File] c7NowA ≠ accessHistogram [c7File] c7NowB := by
  have hA : accessDaysList [c7File] c7NowA = [700] := by
    norm_num [accessDaysList, c7File, c7NowA]
  have hB : accessDaysList [c7File] c7NowB = [800] := by
    norm_num [accessDaysList, c7File, c7NowB]
  have h1 : (accessHistogram [c7File] c7NowA).sum = 1 := by
    rw [accessHistogram, hA, npHistogram_sum]
    norm_num [List.countP_cons, maxDays]
  have h2 : (accessHistogram [c7File] c7NowB).sum = 0 := by
    rw [accessHistogram, hB, npHistogram_sum]
    norm_num [List.countP_cons, maxDays]
  intro he
  rw [he, h2] at h1
  exact Nat.zero_ne_one h1

/-- C7 (amended): a record's `days_unused` is elapsed time / 86400
relative to that record's *visit* instant during the walk, and the
statistics ages are recomputed from a fresh `now = time.time()` at every
`update_file_statistics` call: shifting that call instant by `δ` shifts
every age by `δ/86400`, so the age-based aggregates are a function of the
display instant and are not pinned to the scan completion instant. -/
theorem c7_ages_follow_call_instant (files : List FileInfo) (now δ : ℚ)
    (p nm : String) (vt : ℚ) (st : StatResult) :
    accessDaysList files (now + δ)
        = (accessDaysList files now).map (fun a => a + δ / (24 * 3600))
      ∧ modDaysList files (now + δ)
        = (modDaysList files now).map (fun a => a + δ / (24 * 3600))
      ∧ (mkFileInfo p nm vt st).days_unused = (vt - st.st_atime) / (24 * 3600) := by
  refine ⟨?_, ?_, rfl⟩
  · rw [accessDaysList, accessDaysList, List.map_map]
    refine List.map_congr_left fun f _ => ?_
    simp only [Function.comp]
    ring
  · rw [modDaysList, modDaysList, List.map_map]
    refine List.map_congr_left fun f _ => ?_
    simp only [Function.comp]
    ring

end FileRecovery
